import Mathlib

/-!
Verification of the movemaster-lib robot-control engine (TypeScript `Robot`
class) against its natural-language specification.

Shallow embedding conventions:
* JavaScript numbers are modelled as `JsNum := Option ℚ`, where `none` stands
  for `NaN` and `some q` for an (exact) numeric value.  The library only ever
  produces finite decimal values on the paths verified here, so rationals are
  an exact model; `NaN` arises from failed `parseFloat`/`parseInt` calls and is
  modelled explicitly.  Binary floating-point rounding artefacts and ±Infinity
  are outside the model.
* `undefined` function arguments (the overloaded `moveDelta` signature) are
  modelled with an outer `Option`.
* Serial-port side effects are modelled as a trace of `Event`s: `write s`
  for `port.write(s)` and `delayMs n` for `delay(n)`.
* Fallible operations return `Except RobotError ...`; each `RobotError`
  constructor corresponds to one `throw new Error(...)` site / rejection in
  the source (names follow the spec's error taxonomy).
-/

namespace Movemaster

/-- JavaScript number: `none` is `NaN`, `some q` a finite value. -/
abbrev JsNum : Type := Option ℚ

/-- Embed a rational as a (non-NaN) JavaScript number. -/
def jq (q : ℚ) : JsNum := some q

/-- JS `+` on numbers: NaN-propagating addition. -/
def jadd (a b : JsNum) : JsNum :=
  match a, b with
  | some x, some y => some (x + y)
  | _, _ => none

/-- JS `===` on numbers: `NaN === v` is false. -/
def jeq (a b : JsNum) : Bool :=
  match a, b with
  | some x, some y => decide (x = y)
  | _, _ => false

/-- JS `<` on numbers: any comparison with NaN is false. -/
def jlt (a b : JsNum) : Bool :=
  match a, b with
  | some x, some y => decide (x < y)
  | _, _ => false

/-- JS `>` on numbers: any comparison with NaN is false. -/
def jgt (a b : JsNum) : Bool :=
  match a, b with
  | some x, some y => decide (y < x)
  | _, _ => false

/-- `Math.floor`: floor toward minus infinity; `Math.floor(NaN) = NaN`. -/
def jfloor (a : JsNum) : JsNum :=
  a.map (fun q => ((⌊q⌋ : ℤ) : ℚ))

/-- JS number-to-string coercion (template literals).  Exact for `NaN` and for
integer-valued numbers, which are the only values the embedded code ever
stringifies this way (floored speeds / tool lengths, interpolation counts). -/
def jsNumStr (v : JsNum) : String :=
  match v with
  | none => "NaN"
  | some q => if q.den = 1 then toString q.num else toString q

/-- `src/utils.ts` `fmt`: `value.toFixed(1)` — fixed one-decimal rendering,
rounding to the nearest tenth (ties toward +∞, as `toFixed` does on the exact
value). `NaN.toFixed(1)` is `"NaN"`. -/
def fmt (value : JsNum) : String :=
  match value with
  | none => "NaN"
  | some q =>
    let n : ℤ := ⌊q * 10 + 1 / 2⌋
    let a : ℕ := n.natAbs
    (if n < 0 then "-" else "") ++ toString (a / 10) ++ "." ++ toString (a % 10)

/-- The line terminator used by the wire protocol. -/
def crlf : String := "\r\n"

/-- `src/types.ts` `Position`: five JS-number fields. -/
structure Position where
  x : JsNum
  y : JsNum
  z : JsNum
  p : JsNum
  r : JsNum
  deriving DecidableEq, Repr

/-- Build a pose from plain rationals (no NaN fields). -/
def mkPose (x y z p r : ℚ) : Position :=
  { x := jq x, y := jq y, z := jq z, p := jq p, r := jq r }

/-- `src/types.ts` `ROBOT_ERRORS` enum (numeric values 1, 2, 99). -/
inductive ROBOT_ERRORS where
  | HARDWARE_ERROR
  | COMMAND_ERROR
  | UNKNOWN_ERROR
  deriving DecidableEq, Repr

/-- The numeric value of each `ROBOT_ERRORS` member. -/
def ROBOT_ERRORS.val : ROBOT_ERRORS → ℕ
  | .HARDWARE_ERROR => 1
  | .COMMAND_ERROR => 2
  | .UNKNOWN_ERROR => 99

/-- Failure modes of the engine; each constructor corresponds to one rejection
site in the source (names follow the spec's error taxonomy):
`portNotOpen` ↔ `throw new Error("Port is not open")`,
`noCachedPose` ↔ `throw new Error("Actual position not set")`,
`malformedResponse` ↔ `throw new Error("Invalid position response format")`,
`validationError` ↔ the out-of-range rejections (speed, grip pressure),
`commandError c` ↔ `throw new Error("Command errored: " + c)` in `withCheck`. -/
inductive RobotError where
  | portNotOpen
  | noCachedPose
  | malformedResponse
  | validationError
  | commandError (code : ROBOT_ERRORS)
  deriving DecidableEq, Repr

/-- Observable side effects on the transport: a raw write of bytes, or a
`delay(ms)` pause. -/
inductive Event where
  | write (bytes : String)
  | delayMs (ms : ℕ)
  deriving DecidableEq, Repr

/-- The engine's mutable per-instance state (`Robot` class fields, minus the
raw port handle, which is abstracted to the `portIsOpen` flag it is
queried for). -/
structure RobotState where
  portIsOpen : Bool
  position : Option Position
  toolIsOpen : Bool
  toolLength : JsNum
  speed : JsNum
  deriving DecidableEq, Repr

/-- Field defaults at construction (`toolLength = -1`, `speed = -1`,
no cached position, gripper not open, port closed). -/
def RobotState.initial : RobotState :=
  { portIsOpen := false
    position := none
    toolIsOpen := false
    toolLength := jq (-1)
    speed := jq (-1) }

/-- `sendCommandNoAnswer`: writes `command + "\r\n"` then `delay(100)`.
(The port-open check is performed by each caller through `checkPortOpen`,
modelled at the call sites.) -/
def sendCommandNoAnswerEvents (command : String) : List Event :=
  [Event.write (command ++ crlf), Event.delayMs 100]

/-- `moveTo`: issues `MP` (direct) or the `PC 1` / `PD 1` / `MS 1` burst
(interpolated), then updates the cached position wholesale to the
destructured coordinates. -/
def moveTo (st : RobotState) (position : Position) (interpolatePoints : JsNum) :
    Except RobotError (RobotState × List Event) :=
  if st.portIsOpen = false then .error .portNotOpen
  else
    let evts :=
      if jeq interpolatePoints (jq 0) then
        sendCommandNoAnswerEvents
          ("MP " ++ fmt position.x ++ ", " ++ fmt position.y ++ ", " ++
            fmt position.z ++ ", " ++ fmt position.p ++ ", " ++ fmt position.r)
      else
        sendCommandNoAnswerEvents "PC 1" ++
        sendCommandNoAnswerEvents
          ("PD 1, " ++ fmt position.x ++ ", " ++ fmt position.y ++ ", " ++
            fmt position.z ++ ", " ++ fmt position.p ++ ", " ++ fmt position.r) ++
        sendCommandNoAnswerEvents
          ("MS 1, " ++ jsNumStr interpolatePoints ++ ", " ++
            (if st.toolIsOpen then "C" else "O"))
    .ok ({ st with position := some { x := position.x, y := position.y,
                                      z := position.z, p := position.p,
                                      r := position.r } }, evts)

/-- `moveDelta` (both overloads, dispatched on which trailing arguments are
`undefined`, exactly as the source's
`if (r === undefined && interpolatePoints === undefined)`):
resolves the effective `p`, `r` deltas and interpolation count, then delegates
to `moveTo` with the component-wise sums onto the cached position.  Fails with
`noCachedPose` when no position is cached. -/
def moveDelta (st : RobotState) (x y z : JsNum)
    (pOrInterpolatePoints r interpolatePoints : Option JsNum) :
    Except RobotError (RobotState × List Event) :=
  match st.position with
  | none => .error .noCachedPose
  | some pos =>
    let resolved : JsNum × JsNum × JsNum :=
      if r = none ∧ interpolatePoints = none then
        (pos.p, pos.r, pOrInterpolatePoints.getD (jq 0))
      else
        (pOrInterpolatePoints.getD pos.p, r.getD pos.r,
          interpolatePoints.getD (jq 0))
    moveTo st
      { x := jadd pos.x x, y := jadd pos.y y, z := jadd pos.z z,
        p := jadd pos.p resolved.1, r := jadd pos.r resolved.2.1 }
      resolved.2.2

/-! ### JavaScript string primitives

The source manipulates JS strings with `trim`, `endsWith`, `split`,
`startsWith` and `replace`.  These are modelled over `List Char` (JS
semantics; Lean's built-in `String` operations differ in details and do not
reduce in the kernel). -/

/-- JS `String.prototype.endsWith`. -/
def jsEndsWithChars (s suffix : List Char) : Bool :=
  decide (suffix.length ≤ s.length) &&
    decide (s.drop (s.length - suffix.length) = suffix)

/-- JS `String.prototype.endsWith` on `String`. -/
def jsEndsWith (s suffix : String) : Bool :=
  jsEndsWithChars s.data suffix.data

/-- JS `String.prototype.trim`: strip leading and trailing whitespace
(space, tab, CR, LF). -/
def jsTrimChars (s : List Char) : List Char :=
  ((s.dropWhile Char.isWhitespace).reverse.dropWhile Char.isWhitespace).reverse

/-- JS `String.prototype.trim` on `String`. -/
def jsTrim (s : String) : String :=
  ⟨jsTrimChars s.data⟩

/-- JS `String.prototype.split` with a one-character separator:
`"".split(sep)` is `[""]`, separators delimit (possibly empty) fields. -/
def jsSplitChars (sep : Char) : List Char → List (List Char)
  | [] => [[]]
  | c :: rest =>
    let r := jsSplitChars sep rest
    if c = sep then [] :: r
    else
      match r with
      | h :: t => (c :: h) :: t
      | [] => [[c]]

/-- JS `String.prototype.startsWith`. -/
def jsStartsWithChars (s pre : List Char) : Bool :=
  pre.isPrefixOf s

/-- JS `String.prototype.replace(pat, "")` with a string pattern: removes the
first occurrence of `pat` (and only the first), anywhere in the string. -/
def jsRemoveFirstChars (pat : List Char) : List Char → List Char
  | [] => []
  | c :: rest =>
    if pat.isPrefixOf (c :: rest) then (c :: rest).drop pat.length
    else c :: jsRemoveFirstChars pat rest

/-- Digit run to natural number (base 10). -/
def digitsToNat (ds : List Char) : ℕ :=
  ds.foldl (fun a c => 10 * a + (c.toNat - 48)) 0

/-- JS `parseFloat`, restricted to the decimal grammar the protocol uses
(optional whitespace, optional sign, digits with an optional fractional part;
no exponents, hex or Infinity): parses the longest valid prefix and returns
`none` (NaN) when no digit is found. -/
def parseFloatChars (l : List Char) : JsNum :=
  let l1 := l.dropWhile Char.isWhitespace
  let signed : ℚ × List Char :=
    match l1 with
    | '-' :: rest => (-1, rest)
    | '+' :: rest => (1, rest)
    | _ => (1, l1)
  let ip := signed.2.takeWhile Char.isDigit
  let rest1 := signed.2.dropWhile Char.isDigit
  let fp : List Char :=
    match rest1 with
    | '.' :: rest => rest.takeWhile Char.isDigit
    | _ => []
  if ip.isEmpty && fp.isEmpty then none
  else
    some (signed.1 *
      ((digitsToNat ip : ℚ) + (digitsToNat fp : ℚ) / (10 : ℚ) ^ fp.length))

/-- JS `parseFloat` on `String`. -/
def parseFloat (s : String) : JsNum :=
  parseFloatChars s.data

/-- JS `parseInt(s, 10)`: optional whitespace, optional sign, longest digit
prefix; `none` (NaN) when no digit is found. -/
def parseIntChars (l : List Char) : Option ℤ :=
  let l1 := l.dropWhile Char.isWhitespace
  let signed : ℤ × List Char :=
    match l1 with
    | '-' :: rest => (-1, rest)
    | '+' :: rest => (1, rest)
    | _ => (1, l1)
  let ds := signed.2.takeWhile Char.isDigit
  if ds.isEmpty then none else some (signed.1 * (digitsToNat ds : ℤ))

/-- JS `parseInt(s, 10)` on `String`. -/
def parseInt10 (s : String) : Option ℤ :=
  parseIntChars s.data

/-! ### Command channel and response framer (`sendCommandWithAnswer`)

Each call to `sendCommandWithAnswer` writes the command and registers a fresh
`"data"` listener on the port.  The listener closes over its own accumulation
buffer (`stringBuffer`) and its promise's `resolve`; a promise resolves at
most once, so `resolved` records the first delivered response while the
listener itself stays installed and keeps processing further chunks. -/

/-- One registered `"data"` listener: its closed-over `stringBuffer` and the
response its promise was resolved with (if any). -/
structure Listener where
  buffer : String
  resolved : Option String
  deriving DecidableEq, Repr

/-- The listener a fresh `sendCommandWithAnswer` call installs. -/
def Listener.fresh : Listener := ⟨"", none⟩

/-- Delivery of one `"data"` chunk to one listener: append to the buffer; if
the buffer now ends with CR LF, resolve with the trimmed buffer (a no-op if
the promise already resolved) and reset the buffer. -/
def feedListener (l : Listener) (chunk : String) : Listener :=
  let stringBuffer := l.buffer ++ chunk
  if jsEndsWith stringBuffer crlf then
    { buffer := ""
      resolved :=
        match l.resolved with
        | some r => some r
        | none => some (jsTrim stringBuffer) }
  else { l with buffer := stringBuffer }

/-- The set of `"data"` listeners currently registered on the port (the
source never removes one). -/
structure Channel where
  listeners : List Listener
  deriving DecidableEq, Repr

/-- Start of `sendCommandWithAnswer`: port-open check, write of
`command + "\r\n"`, and registration of one more `"data"` listener.  The
source has no other failure or rejection path here. -/
def sendCommandWithAnswerStart (portIsOpen : Bool) (ch : Channel)
    (command : String) : Except RobotError (Channel × List Event) :=
  if portIsOpen = false then .error .portNotOpen
  else .ok (⟨ch.listeners ++ [Listener.fresh]⟩, [Event.write (command ++ crlf)])

/-- Arrival of one `"data"` chunk: every registered listener runs. -/
def channelOnData (ch : Channel) (chunk : String) : Channel :=
  ⟨ch.listeners.map (fun l => feedListener l chunk)⟩

/-- A single listener consuming a sequence of chunks in arrival order. -/
def runFramer (chunks : List String) : Listener :=
  chunks.foldl feedListener Listener.fresh

/-- Number of (non-overlapping) occurrences of CR LF in a character list. -/
def countCRLF : List Char → ℕ
  | '\r' :: '\n' :: rest => countCRLF rest + 1
  | _ :: rest => countCRLF rest
  | [] => 0

/-! ### Pose query (`getActualPosition`) -/

/-- Field cleanup in `getActualPosition`: trim, remove the first `"+"`,
prefix a bare leading decimal point with `"0"`, then `parseFloat`. -/
def cleanPositionField (part : List Char) : JsNum :=
  let cleaned := jsRemoveFirstChars "+".data (jsTrimChars part)
  let cleaned2 := if jsStartsWithChars cleaned ".".data then '0' :: cleaned else cleaned
  parseFloatChars cleaned2

/-- The five-field pose assembled from a `WH` response (fields beyond the
fifth are ignored, exactly as the source reads `parts[0] .. parts[4]`). -/
def parsedPose (response : String) : Position :=
  let parts := (jsSplitChars ',' response.data).map cleanPositionField
  { x := parts.getD 0 none, y := parts.getD 1 none, z := parts.getD 2 none,
    p := parts.getD 3 none, r := parts.getD 4 none }

/-- `getActualPosition(forceUpdateByHardware)`: with the refresh not forced
and a cached position present, return the cached position (the `{...}` copy
is value-equal; object identity is treated in the heap model below) with no
transport I/O.  Otherwise issue `WH` (via `sendCommandWithAnswer`, which
checks the port), split the framed reply on commas, clean and parse each
field, fail with `malformedResponse` when fewer than five fields are present,
and otherwise store the parsed pose in the cache and return it.
`response` stands for the framed reply the hardware sends to the `WH`
query. -/
def getActualPosition (st : RobotState) (forceUpdateByHardware : Bool)
    (response : String) : Except RobotError (Position × RobotState × List Event) :=
  match forceUpdateByHardware, st.position with
  | false, some pos => .ok (pos, st, [])
  | _, _ =>
    if st.portIsOpen = false then .error .portNotOpen
    else
      let parts := (jsSplitChars ',' response.data).map cleanPositionField
      if parts.length < 5 then .error .malformedResponse
      else
        .ok (parsedPose response, { st with position := some (parsedPose response) },
          [Event.write ("WH" ++ crlf)])

/-! ### Setters, getters, path move, error check -/

/-- `setSpeed`: floor the input, reject when the floored value is outside
`[0, 9]` (before any write), otherwise cache the floored speed and send
`SP <floored>`. -/
def setSpeed (st : RobotState) (speed : JsNum) :
    Except RobotError (RobotState × List Event) :=
  if st.portIsOpen = false then .error .portNotOpen
  else
    let roundedSpeed := jfloor speed
    if jlt roundedSpeed (jq 0) || jgt roundedSpeed (jq 9) then
      .error .validationError
    else
      .ok ({ st with speed := roundedSpeed },
        sendCommandNoAnswerEvents ("SP " ++ jsNumStr roundedSpeed))

/-- `setToolLength`: caches the given length unmodified, sends
`TL <Math.floor(length)>`. -/
def setToolLength (st : RobotState) (length : JsNum) :
    Except RobotError (RobotState × List Event) :=
  if st.portIsOpen = false then .error .portNotOpen
  else
    .ok ({ st with toolLength := length },
      sendCommandNoAnswerEvents ("TL " ++ jsNumStr (jfloor length)))

/-- `getToolLength`: returns the cached tool length. -/
def getToolLength (st : RobotState) : JsNum :=
  st.toolLength

/-- `getPosition`: returns the cached position (value level; object identity
is treated in the heap model below). -/
def getPosition (st : RobotState) : Option Position :=
  st.position

/-- The source's `positionOffset` constant in `movePath` (1-based slots). -/
def positionOffset : ℕ := 1

/-- The `PD` path-slot-store command for one slot/point. -/
def pdCommand (slot : ℕ) (point : Position) : String :=
  "PD " ++ toString slot ++ ", " ++ fmt point.x ++ ", " ++ fmt point.y ++ ", " ++
    fmt point.z ++ ", " ++ fmt point.p ++ ", " ++ fmt point.r

/-- The `movePath` loop body: for the point at index `i`, store it into slot
`i + positionOffset` (write + the 100 ms pause inside `sendCommandNoAnswer`)
and then pause a further `delay(100)` between commands. -/
def movePathLoop : List Position → ℕ → List Event
  | [], _ => []
  | point :: rest, i =>
    sendCommandNoAnswerEvents (pdCommand (i + positionOffset) point) ++
      [Event.delayMs 100] ++ movePathLoop rest (i + 1)

/-- The `MC` execute-range command issued after the loop:
`MC <positionOffset>, <points.length - 1 + positionOffset>` (the arithmetic is
over integers: for zero points the range end is 0). -/
def mcCommand (numPoints : ℕ) : String :=
  "MC " ++ toString (positionOffset : ℤ) ++ ", " ++
    toString ((numPoints : ℤ) - 1 + (positionOffset : ℤ))

/-- `movePath`: port check, the slot-store loop, then the execute-range
command.  The cached position is not touched. -/
def movePath (st : RobotState) (points : List Position) :
    Except RobotError (RobotState × List Event) :=
  if st.portIsOpen = false then .error .portNotOpen
  else
    .ok (st, movePathLoop points 0 ++
      sendCommandNoAnswerEvents (mcCommand points.length))

/-- Result type of `checkRobotErrorCode`:
`{ ok: true } | { ok: false; error: ROBOT_ERRORS }`. -/
inductive ErrorCheckResult where
  | ok : ErrorCheckResult
  | fail (error : ROBOT_ERRORS) : ErrorCheckResult
  deriving DecidableEq, Repr

/-- The `switch` in `checkRobotErrorCode`: `parseInt(res, 10)`, then
NaN ↦ UNKNOWN, 0 ↦ ok, 1 ↦ HARDWARE, 2 ↦ COMMAND, anything else ↦ UNKNOWN. -/
def mapErrorCode (res : String) : ErrorCheckResult :=
  match parseInt10 res with
  | none => .fail .UNKNOWN_ERROR
  | some 0 => .ok
  | some 1 => .fail .HARDWARE_ERROR
  | some 2 => .fail .COMMAND_ERROR
  | some _ => .fail .UNKNOWN_ERROR

/-- `checkRobotErrorCode`: port check, the `ER` query (via
`sendCommandWithAnswer`), then the error-code mapping of the framed reply. -/
def checkRobotErrorCode (st : RobotState) (reply : String) :
    Except RobotError (ErrorCheckResult × List Event) :=
  if st.portIsOpen = false then .error .portNotOpen
  else .ok (mapErrorCode reply, [Event.write ("ER" ++ crlf)])

/-- `withCheck`: await the wrapped operation's already-running promise (a
rejection propagates before any `ER` query is issued), then run
`checkRobotErrorCode`; on a non-ok mapped code fail with `commandError`,
discarding the operation's result, otherwise return the operation's result.
The returned event list holds the transport I/O `withCheck` itself adds. -/
def withCheck {T : Type} (st : RobotState) (result : Except RobotError T)
    (erReply : String) : Except RobotError T × List Event :=
  match result with
  | .error e => (.error e, [])
  | .ok cbResult =>
    match checkRobotErrorCode st erReply with
    | .error e => (.error e, [])
    | .ok (errResult, evts) =>
      match errResult with
      | .ok => (.ok cbResult, evts)
      | .fail err => (.error (.commandError err), evts)

/-! ### Heap model for object identity (claim C8)

JS objects are references into a heap.  `Heap.objs` is the store (a reference
is an index), `positionRef` is the `this.position` field.  `getPosition()`
returns `this.position` itself; the cached-read path of
`getActualPosition(false)` returns `{ ...this.position }`, a freshly
allocated shallow copy. -/

structure Heap where
  objs : List Position
  deriving DecidableEq, Repr

/-- A reference into the heap. -/
abbrev Ref := ℕ

/-- Dereference (out-of-range never occurs in the theorems below). -/
def Heap.read (h : Heap) (ref : Ref) : Position :=
  h.objs.getD ref (mkPose 0 0 0 0 0)

/-- A caller mutating `pose.x` through a reference it holds. -/
def Heap.writeX (h : Heap) (ref : Ref) (v : JsNum) : Heap :=
  ⟨h.objs.set ref { h.read ref with x := v }⟩

/-- Allocation of a fresh object. -/
def Heap.alloc (h : Heap) (pos : Position) : Ref × Heap :=
  (h.objs.length, ⟨h.objs ++ [pos]⟩)

/-- The engine's position cache at heap level. -/
structure RobotHeapState where
  heap : Heap
  positionRef : Option Ref
  deriving DecidableEq, Repr

/-- `getPosition()` at heap level: `return this.position` — the cache's own
reference, no copy. -/
def getPositionRef (rs : RobotHeapState) : Option Ref :=
  rs.positionRef

/-- The cached-read path of `getActualPosition(false)` at heap level:
`return { ...this.position }` — allocate a fresh object holding a shallow
copy of the cached pose and return the fresh reference. -/
def getActualPositionCachedRef (rs : RobotHeapState) (ref : Ref) :
    Ref × RobotHeapState :=
  let (newRef, heap) := rs.heap.alloc (rs.heap.read ref)
  (newRef, { rs with heap := heap })

deriving instance DecidableEq for Except

/-! ### Shared test fixtures and helper lemmas -/

/-- A freshly constructed engine whose port is open. -/
def stOpen : RobotState := { RobotState.initial with portIsOpen := true }

/-- The event trace claim C6 describes: for each point, in order, a `PD` store
into slot `i+1` with the settle-delay pacing after it, followed by exactly one
`MC` execute-range command spanning slots 1 through N. -/
def claimedPathTrace (points : List Position) : List Event :=
  (points.enum.flatMap fun ip =>
    [Event.write (pdCommand (ip.1 + 1) ip.2 ++ crlf), Event.delayMs 100,
     Event.delayMs 100]) ++
  [Event.write ("MC 1, " ++ toString (points.length : ℤ) ++ crlf), Event.delayMs 100]

lemma movePathLoop_enumFrom (points : List Position) (i : ℕ) :
    movePathLoop points i =
      (List.enumFrom i points).flatMap fun ip =>
        [Event.write (pdCommand (ip.1 + 1) ip.2 ++ crlf), Event.delayMs 100,
         Event.delayMs 100] := by
  induction points generalizing i with
  | nil => rfl
  | cons pt rest ih =>
      simp [movePathLoop, List.enumFrom, ih, sendCommandNoAnswerEvents, positionOffset]

lemma setSpeed_reject_iff (q : ℚ) :
    (jlt (some ((⌊q⌋ : ℤ) : ℚ)) (jq 0) || jgt (some ((⌊q⌋ : ℤ) : ℚ)) (jq 9)) = true ↔
      (q < 0 ∨ 10 ≤ q) := by
  have h1 : jlt (some ((⌊q⌋ : ℤ) : ℚ)) (jq 0) = decide (((⌊q⌋ : ℤ) : ℚ) < 0) := rfl
  have h2 : jgt (some ((⌊q⌋ : ℤ) : ℚ)) (jq 9) = decide ((9 : ℚ) < ((⌊q⌋ : ℤ) : ℚ)) := rfl
  rw [h1, h2]
  simp only [Bool.or_eq_true, decide_eq_true_eq, Int.cast_lt_zero]
  constructor
  · rintro (hx | hx)
    · exact Or.inl (by exact_mod_cast Int.floor_lt.mp hx)
    · refine Or.inr ?_
      have h9 : (9 : ℤ) < ⌊q⌋ := by exact_mod_cast hx
      have h10 : (10 : ℤ) ≤ ⌊q⌋ := by omega
      exact_mod_cast Int.le_floor.mp h10
  · rintro (hx | hx)
    · exact Or.inl (Int.floor_lt.mpr (by exact_mod_cast hx))
    · refine Or.inr ?_
      have h10 : (10 : ℤ) ≤ ⌊q⌋ := Int.le_floor.mpr (by exact_mod_cast hx)
      exact_mod_cast (by omega : (9 : ℤ) < ⌊q⌋)

/-! ### Claim theorems -/

/-- Claim C1 (code bug).  The claim states that `moveDelta(1,2,3)` with cached
pose `{x:10,y:0,z:0,p:5,r:5}` issues an absolute move to `{x:11,y:2,z:3,p:5,r:5}`
with pitch and roll reused unchanged.  The code instead resolves the 3-argument
overload by using the cached `p`, `r` as the deltas themselves and then adds
them onto the cached pose again, so the absolute move goes to `p:10, r:10`
(cached pitch/roll doubled), as this evaluation shows; the `noCachedPose`
failure without a cached pose does hold. -/
theorem moveDelta_threeArg_doubles_pitch_roll :
    moveDelta { stOpen with position := some (mkPose 10 0 0 5 5) }
        (jq 1) (jq 2) (jq 3) none none none =
      .ok ({ stOpen with position := some (mkPose 11 2 3 10 10) },
        [Event.write ("MP 11.0, 2.0, 3.0, 10.0, 10.0" ++ crlf), Event.delayMs 100]) ∧
    mkPose 11 2 3 10 10 ≠ mkPose 11 2 3 5 5 ∧
    moveDelta stOpen (jq 1) (jq 2) (jq 3) none none none = .error .noCachedPose := by
  refine ⟨?_, by decide, rfl⟩
  simp only [moveDelta, moveTo, stOpen, RobotState.initial, mkPose, jq, jadd, jeq,
    sendCommandNoAnswerEvents, fmt, crlf, jsNumStr]
  norm_num
  rfl

/-- Claim C2 (code bug).  The claim states that a second
`sendCommandWithAnswer` issued while one is still awaiting its framed response
fails with `ProtocolViolation`.  The code has no such check: the second call
succeeds and registers an additional `"data"` listener, and the next framed
response is then delivered to both waiters, exactly the multiple-delivery the
claim rules out. -/
theorem overlapping_sendWithResponse_registers_extra_listener :
    sendCommandWithAnswerStart true ⟨[]⟩ "WH" =
      .ok (⟨[Listener.fresh]⟩, [Event.write ("WH" ++ crlf)]) ∧
    sendCommandWithAnswerStart true ⟨[Listener.fresh]⟩ "ER" =
      .ok (⟨[Listener.fresh, Listener.fresh]⟩, [Event.write ("ER" ++ crlf)]) ∧
    (channelOnData ⟨[Listener.fresh, Listener.fresh]⟩ ("0" ++ crlf)).listeners =
      [⟨"", some "0"⟩, ⟨"", some "0"⟩] := by
  decide

/-- Claim C3 (code bug).  The claim states that whenever the concatenation of
the delivered chunks contains exactly one CR-LF-terminated line, exactly one
response (the trimmed line) is delivered, independently of the chunk
boundaries, including when bytes follow the terminator.  The framer only
checks whether the whole buffer ends with CR LF after each append, so for the
single chunk `"A\r\nB"` — same concatenation, one CR-LF line — no response is
ever delivered, while the split `["A\r\n", "B"]` delivers `"A"`. -/
theorem framer_chunking_dependent_delivery :
    "A\r\nB" = "A\r\n" ++ "B" ∧
    countCRLF "A\r\nB".data = 1 ∧
    (runFramer ["A\r\n", "B"]).resolved = some "A" ∧
    (runFramer ["A\r\nB"]).resolved = none := by
  decide

/-- Claim C4, counterexample.  The claim states that `getActualPosition(true)`
fails with `MalformedResponse` when any field fails to parse as a number.  For
the five-field response `"a,b,c,d,e"` every field fails to parse, yet the call
succeeds, silently storing and returning an all-NaN pose. -/
theorem getActualPosition_unparseableFields_no_error :
    getActualPosition stOpen true "a,b,c,d,e" =
      .ok (⟨none, none, none, none, none⟩,
        { stOpen with position := some ⟨none, none, none, none, none⟩ },
        [Event.write ("WH" ++ crlf)]) := by
  decide

/-- Claim C4, amended.  `getActualPosition(true)` splits the framed reply on
commas and cleans each field (trim, remove the first `+`, prefix a bare
leading decimal point with `0`) before `parseFloat`; it fails with
`MalformedResponse` exactly when fewer than five fields are present (a field
that fails to parse yields NaN and is stored without error); on success the
parsed pose is stored in the cache and returned. -/
theorem getActualPosition_forced_parse_spec (st : RobotState) (response : String)
    (h : st.portIsOpen = true) :
    ((jsSplitChars ',' response.data).length < 5 →
      getActualPosition st true response = .error .malformedResponse) ∧
    (5 ≤ (jsSplitChars ',' response.data).length →
      getActualPosition st true response =
        .ok (parsedPose response, { st with position := some (parsedPose response) },
          [Event.write ("WH" ++ crlf)])) := by
  constructor <;> intro hlen <;>
    cases hpos : st.position <;>
      simp [getActualPosition, h, hpos, List.length_map, parsedPose, hlen]

/-- Claim C4, witness: the spec's example response parses to
`{x:12.3, y:0.5, z:-1.0, p:0.0, r:90.0}`, which is stored and returned. -/
theorem getActualPosition_forced_parse_spec_witness :
    getActualPosition stOpen true "+012.300, .500,-001.000,+000.000,+090.000\r\n" =
      .ok (mkPose (123/10) (1/2) (-1) 0 90,
        { stOpen with position := some (mkPose (123/10) (1/2) (-1) 0 90) },
        [Event.write ("WH" ++ crlf)]) := by
  have h := (getActualPosition_forced_parse_spec stOpen
      "+012.300, .500,-001.000,+000.000,+090.000\r\n" rfl).2 (by decide)
  rw [h]
  have hpose : parsedPose "+012.300, .500,-001.000,+000.000,+090.000\r\n" =
      mkPose (123/10) (1/2) (-1) 0 90 := by
    simp +decide [parsedPose, cleanPositionField, parseFloatChars, digitsToNat,
      jsTrimChars, jsRemoveFirstChars, jsStartsWithChars, jsSplitChars, mkPose, jq,
      Char.isWhitespace, Char.isDigit]
    norm_num
  rw [hpose]

/-- Claim C5, counterexample.  The claim states that `setSpeed(s)` fails with
`ValidationError` for every `s` outside `[0, 9]`.  The input `9.5` lies
outside `[0, 9]`, yet the call succeeds (validation is applied to the floored
value `9`): the speed cache becomes `9` and `SP 9` is sent. -/
theorem setSpeed_accepts_nine_point_five :
    setSpeed stOpen (jq (19/2)) =
      .ok ({ stOpen with speed := jq 9 },
        [Event.write ("SP 9" ++ crlf), Event.delayMs 100]) ∧
    ¬((19 : ℚ)/2 ≤ 9) := by
  constructor
  · have h192 : (19/2 : ℚ) = mkRat 19 2 := by
      rw [Rat.mkRat_eq_div]
      norm_num
    rw [jq, h192]
    decide
  · norm_num

/-- Claim C5, amended.  `setSpeed(s)` fails with `ValidationError` exactly when
the floored input lies outside `[0, 9]` — equivalently, when `s < 0` or
`10 ≤ s` — with the failure raised before any bytes are written; otherwise it
caches `⌊s⌋` (which equals truncation toward zero on the accepted range, as
accepted inputs are nonnegative) and sends `SP ⌊s⌋`. -/
theorem setSpeed_spec (st : RobotState) (q : ℚ) (h : st.portIsOpen = true) :
    ((q < 0 ∨ 10 ≤ q) → setSpeed st (jq q) = .error .validationError) ∧
    (0 ≤ q → q < 10 →
      setSpeed st (jq q) =
        .ok ({ st with speed := some ((⌊q⌋ : ℤ) : ℚ) },
          [Event.write ("SP " ++ toString ⌊q⌋ ++ crlf), Event.delayMs 100])) := by
  have hflq : jfloor (jq q) = some ((⌊q⌋ : ℤ) : ℚ) := rfl
  constructor
  · intro hq
    have hc := (setSpeed_reject_iff q).mpr hq
    simp only [setSpeed]
    rw [if_neg (show ¬(st.portIsOpen = false) by simp [h]), hflq, if_pos hc]
  · intro h0 h10
    have hc : (jlt (some ((⌊q⌋ : ℤ) : ℚ)) (jq 0) ||
        jgt (some ((⌊q⌋ : ℤ) : ℚ)) (jq 9)) = false := by
      rw [Bool.eq_false_iff]
      intro htrue
      rcases (setSpeed_reject_iff q).mp htrue with hx | hx
      · exact absurd h0 (not_le.mpr hx)
      · exact absurd h10 (not_lt.mpr hx)
    simp only [setSpeed]
    rw [if_neg (show ¬(st.portIsOpen = false) by simp [h]), hflq,
      if_neg (show ¬((jlt (some ((⌊q⌋ : ℤ) : ℚ)) (jq 0) ||
        jgt (some ((⌊q⌋ : ℤ) : ℚ)) (jq 9)) = true) by simp [hc])]
    simp [jsNumStr, sendCommandNoAnswerEvents, Rat.den_intCast, Rat.num_intCast]

/-- Claim C5, witness: the spec's example `setSpeed(5.9)` succeeds, caching `5`
and sending `SP 5`. -/
theorem setSpeed_spec_witness :
    setSpeed stOpen (jq (59/10)) =
      .ok ({ stOpen with speed := jq 5 },
        [Event.write ("SP 5" ++ crlf), Event.delayMs 100]) := by
  have h := (setSpeed_spec stOpen (59/10) rfl).2 (by norm_num) (by norm_num)
  rw [h]
  norm_num
  decide

/-- Claim C6 (confirmed).  For every non-empty sequence of poses, `movePath`
stores pose `i` (0-based) into path slot `i+1` via a `PD` command, in sequence
order, with the fixed settle pacing after each store, and after all stores
issues exactly one `MC` execute-range command spanning slot 1 through slot N
(the trace equality fixes the whole command sequence, so no other command —
in particular no second `MC` — occurs). -/
theorem movePath_stores_then_executes (st : RobotState) (points : List Position)
    (h : st.portIsOpen = true) (hne : points ≠ []) :
    movePath st points = .ok (st, claimedPathTrace points) := by
  simp only [movePath]
  rw [if_neg (show ¬(st.portIsOpen = false) by simp [h])]
  unfold claimedPathTrace
  rw [movePathLoop_enumFrom, List.enum]
  congr 2
  simp [mcCommand, sendCommandNoAnswerEvents, positionOffset]
  rw [show "MC " ++ toString (1 : ℤ) ++ ", " = "MC 1, " from by decide]

/-- Claim C6, witness: `movePath` on three concrete poses yields the stores
for slots 1, 2, 3 in order, each paced, followed by the single `MC 1, 3`. -/
theorem movePath_stores_then_executes_witness :
    movePath stOpen [mkPose 1 2 3 4 5, mkPose 6 7 8 9 10, mkPose 0 0 0 0 0] =
      .ok (stOpen,
        [Event.write ("PD 1, 1.0, 2.0, 3.0, 4.0, 5.0" ++ crlf), Event.delayMs 100,
         Event.delayMs 100,
         Event.write ("PD 2, 6.0, 7.0, 8.0, 9.0, 10.0" ++ crlf), Event.delayMs 100,
         Event.delayMs 100,
         Event.write ("PD 3, 0.0, 0.0, 0.0, 0.0, 0.0" ++ crlf), Event.delayMs 100,
         Event.delayMs 100,
         Event.write ("MC 1, 3" ++ crlf), Event.delayMs 100]) := by
  rw [movePath_stores_then_executes stOpen _ rfl (by decide)]
  congr 1
  congr 1
  simp [claimedPathTrace, pdCommand, fmt, mkPose, jq, List.enum, List.enumFrom,
    List.flatMap_cons, List.flatMap_nil]
  norm_num
  decide

/-- Claim C7 (confirmed).  `withCheck` propagates a failure of the wrapped
operation unchanged with no `ER` query; after a successful operation it
unconditionally issues `ER`, and the mapped reply — 0 ↦ Ok, 1 ↦ HardwareError,
2 ↦ CommandOrPositionError, any other or unparseable value ↦ Unknown — either
lets the operation's result through (Ok) or replaces it with `commandError`
carrying the mapped code. -/
theorem withCheck_spec {T : Type} (st : RobotState) (a : T) (e : RobotError)
    (reply : String) (h : st.portIsOpen = true) :
    withCheck st (Except.error e : Except RobotError T) reply = (.error e, []) ∧
    (mapErrorCode reply = .ok →
      withCheck st (.ok a) reply = (.ok a, [Event.write ("ER" ++ crlf)])) ∧
    (∀ c, mapErrorCode reply = .fail c →
      withCheck st (.ok a) reply =
        (.error (.commandError c), [Event.write ("ER" ++ crlf)])) ∧
    (parseInt10 reply = some 0 → mapErrorCode reply = .ok) ∧
    (parseInt10 reply = some 1 → mapErrorCode reply = .fail .HARDWARE_ERROR) ∧
    (parseInt10 reply = some 2 → mapErrorCode reply = .fail .COMMAND_ERROR) ∧
    (parseInt10 reply = none → mapErrorCode reply = .fail .UNKNOWN_ERROR) ∧
    (∀ n : ℤ, parseInt10 reply = some n → n ≠ 0 → n ≠ 1 → n ≠ 2 →
      mapErrorCode reply = .fail .UNKNOWN_ERROR) := by
  refine ⟨rfl, ?_, ?_, ?_, ?_, ?_, ?_, ?_⟩
  · intro hm
    simp [withCheck, checkRobotErrorCode, h, hm]
  · intro c hm
    simp [withCheck, checkRobotErrorCode, h, hm]
  · intro hp
    simp [mapErrorCode, hp]
  · intro hp
    simp [mapErrorCode, hp]
  · intro hp
    simp [mapErrorCode, hp]
  · intro hp
    simp [mapErrorCode, hp]
  · intro n hp h0 h1 h2
    unfold mapErrorCode
    rw [hp]
    match n, h0, h1, h2 with
    | Int.ofNat 0, h0, _, _ => exact absurd rfl h0
    | Int.ofNat 1, _, h1, _ => exact absurd rfl h1
    | Int.ofNat 2, _, _, h2 => exact absurd rfl h2
    | Int.ofNat (m + 3), _, _, _ => rfl
    | Int.negSucc m, _, _, _ => rfl

/-- Claim C7, witness: an operation failure propagates with no `ER` traffic;
a successful operation followed by reply `"0"` returns the result unchanged;
reply `"2"` replaces it with `commandError COMMAND_ERROR`. -/
theorem withCheck_spec_witness :
    withCheck stOpen (Except.error RobotError.noCachedPose : Except RobotError ℕ)
        "0" = (.error .noCachedPose, []) ∧
    withCheck stOpen (Except.ok (42 : ℕ)) "0" =
      (.ok 42, [Event.write ("ER" ++ crlf)]) ∧
    withCheck stOpen (Except.ok (42 : ℕ)) "2" =
      (.error (.commandError .COMMAND_ERROR), [Event.write ("ER" ++ crlf)]) :=
  ⟨(withCheck_spec stOpen 42 RobotError.noCachedPose "0" rfl).1,
   (withCheck_spec stOpen 42 RobotError.noCachedPose "0" rfl).2.1 (by decide),
   (withCheck_spec stOpen 42 RobotError.noCachedPose "2" rfl).2.2.1
     ROBOT_ERRORS.COMMAND_ERROR (by decide)⟩

/-- Claim C8 (code bug).  The claim states that both `getActualPosition` and
`getPosition` return a copy of the cached pose, never a shared mutable
reference.  At heap level, `getPosition` returns the cache's own reference
(ref 0), and a caller writing `x := 999` through that reference changes the
cached pose itself; by contrast the cached-read path of `getActualPosition`
allocates a fresh object (ref 1), and writing through it leaves the cached
pose untouched. -/
theorem getPosition_returns_cache_reference :
    getPositionRef ⟨⟨[mkPose 1 2 3 4 5]⟩, some 0⟩ = some 0 ∧
    (Heap.writeX ⟨[mkPose 1 2 3 4 5]⟩ 0 (jq 999)).read 0 =
      { mkPose 1 2 3 4 5 with x := jq 999 } ∧
    (getActualPositionCachedRef ⟨⟨[mkPose 1 2 3 4 5]⟩, some 0⟩ 0).1 = 1 ∧
    ((getActualPositionCachedRef ⟨⟨[mkPose 1 2 3 4 5]⟩, some 0⟩ 0).2.heap.writeX 1
        (jq 999)).read 0 = mkPose 1 2 3 4 5 := by
  decide

/-- Claim C9 (confirmed).  `movePath` on the empty sequence sends no `PD`
command and exactly one execute-range command, `MC 1, 0`, with the inverted
(empty) slot range — it neither fails nor does nothing. -/
theorem movePath_empty_inverted_range (st : RobotState) (h : st.portIsOpen = true) :
    movePath st [] = .ok (st, [Event.write ("MC 1, 0" ++ crlf), Event.delayMs 100]) := by
  simp [movePath, movePathLoop, mcCommand, sendCommandNoAnswerEvents, h, positionOffset]
  decide

/-- Claim C9, witness: the empty-path call evaluated on a concrete open
state. -/
theorem movePath_empty_inverted_range_witness :
    movePath stOpen [] =
      .ok (stOpen, [Event.write ("MC 1, 0" ++ crlf), Event.delayMs 100]) :=
  movePath_empty_inverted_range stOpen rfl

/-- Claim C10 (confirmed).  `setToolLength(L)` writes `TL ⌊L⌋` on the wire but
caches the untruncated `L`, so `getToolLength` returns `L` itself; when `L` is
fractional (denominator ≠ 1) the cached value differs from the value sent to
the device. -/
theorem setToolLength_caches_untruncated (st : RobotState) (q : ℚ)
    (h : st.portIsOpen = true) :
    setToolLength st (jq q) =
      .ok ({ st with toolLength := jq q },
        [Event.write ("TL " ++ toString ⌊q⌋ ++ crlf), Event.delayMs 100]) ∧
    getToolLength { st with toolLength := jq q } = jq q ∧
    (q.den ≠ 1 → getToolLength { st with toolLength := jq q } ≠ some ((⌊q⌋ : ℤ) : ℚ)) := by
  refine ⟨?_, rfl, ?_⟩
  · simp [setToolLength, h, sendCommandNoAnswerEvents, jfloor, jq, jsNumStr,
      Rat.den_intCast, Rat.num_intCast]
  · intro hden heq
    simp only [getToolLength, jq, Option.some.injEq] at heq
    apply hden
    rw [heq]
    exact Rat.den_intCast _

/-- Claim C10, witness: `setToolLength(3.5)` sends `TL 3` but caches `3.5`,
which `getToolLength` returns, and the cached value differs from the wire
value. -/
theorem setToolLength_caches_untruncated_witness :
    setToolLength stOpen (jq (7/2)) =
      .ok ({ stOpen with toolLength := jq (7/2) },
        [Event.write ("TL 3" ++ crlf), Event.delayMs 100]) ∧
    getToolLength { stOpen with toolLength := jq (7/2) } = jq (7/2) ∧
    getToolLength { stOpen with toolLength := jq (7/2) } ≠ some ((3 : ℤ) : ℚ) := by
  obtain ⟨h1, h2, h3⟩ := setToolLength_caches_untruncated stOpen (7/2) rfl
  refine ⟨?_, h2, ?_⟩
  · rw [h1]
    norm_num
    decide
  · have := h3 (by norm_num)
    rwa [show ⌊(7/2 : ℚ)⌋ = 3 from by norm_num] at this

end Movemaster
